import Mathlib

/-!
Verification development for a C++ thread pool (`ThreadPool.h`, `Task.h`, `seq.h`).

The embedding has two layers.

1. An interleaved small-step model of the pool controller and its worker
   threads (`ThreadPool`, `Act`, `stepFn`).  Shared memory (`tasks_`,
   `activeThreads_`, `isShutdown_`, `isForced_`, the `threads_` vector and the
   `pullLock_` mutex) is part of the state; every shared-memory access of
   `ThreadPool::doWork`, `ThreadPool::wait` and the controller entry points is
   one step, so lock-free readers such as `wait()` can observe any intermediate
   state, exactly as in the source.  Tasks are identified by the order of their
   enqueueing; the ghost field `executed` records which tasks have run.
   Machine-integer conversions are explicit: `sizeCast` models the C++
   conversion of a (possibly negative) `int` to `size_t` that happens in
   `threads_.size() < maxThreads_` and `threads_.size() == activeThreads_`.

2. A sequential data model of the task envelope (`Task.h`): a callable plus
   captured arguments plus a one-shot result channel shared with the future
   returned by `submit` (`TaskP`, `PoolP`).  A callable that throws is a
   callable returning `Except.error`; `std::packaged_task` stores the outcome
   (value or exception) into the shared state, which the model renders by
   appending the outcome to the channel's write list.
-/

/-- Program points of the worker loop `ThreadPool::doWork` (ThreadPool.h,
lines 200-238).  Each point is just before the named source action. -/
inductive TPpc
  /-- outer `while (!isShutdown_)` check, line 205 -/
  | loopHead
  /-- acquiring `pullLock_` via the `unique_lock`, line 209 -/
  | acquire
  /-- Statement `if (alreadyExecuted) --activeThreads_;`, lines 212-213 -/
  | decCheck
  /-- inner `while (tasks_.empty() && !isShutdown_)` check, line 215 -/
  | innerCheck
  /-- blocked in `taskAvailable_.wait(ul)`, line 218 (pullLock released) -/
  | waiting
  /-- woken from the condition variable, reacquiring `pullLock_` -/
  | reacquire
  /-- Statement `if (isShutdown_) break;`, line 224 -/
  | shutCheck
  /-- Statements `task = std::move(tasks_.front()); tasks_.pop();` under `queueLock_`, lines 226-229 -/
  | claim
  /-- Statement `++activeThreads_;`, line 231 -/
  | inc
  /-- releasing `pullLock_` at the end of the block, line 232 -/
  | unlock
  /-- Statements `task.execute();` and `alreadyExecuted = true;`, lines 234-235 -/
  | exec
  /-- thread function returned -/
  | exited
  deriving DecidableEq

/-- Local state of one worker thread running `ThreadPool::doWork`. -/
structure Worker where
  pc : TPpc
  /-- the local `bool alreadyExecuted` of `doWork` -/
  alreadyExecuted : Bool
  /-- the task envelope moved out of the queue and not yet executed -/
  claimed : Option Nat
  deriving DecidableEq

/-- A freshly started worker thread, about to run `doWork`'s loop. -/
def Worker.fresh : Worker := ⟨TPpc.loopHead, false, none⟩

/-- Program points of a thread polling inside `ThreadPool::wait`
(ThreadPool.h, lines 172-177): the loop condition
`activeThreads_ != 0 || !tasks_.empty()` reads `activeThreads_` first and,
only if it is zero, reads `tasks_.empty()`; neither read takes a lock. -/
inductive OPc
  | readActive
  | readEmpty
  | returned
  deriving DecidableEq

/-- The shared state of a `ThreadPool` object together with the local states
of its worker threads and of an optional thread inside `wait()`.  Fields keep
the member names of the source; `threads_` is the vector of workers, with
`threadsCount` its current size (`threads_.size()`), and `threads_ w` is
meaningful for `w < threadsCount`. -/
structure ThreadPool where
  tasks_ : List Nat
  activeThreads_ : Int
  isShutdown_ : Bool
  isForced_ : Bool
  maxThreads_ : Int
  /-- holder of the `pullLock_` mutex: a worker index, or `none` when free
  (controller-side critical sections are atomic steps here) -/
  pullHolder : Option Nat
  threads_ : Nat → Worker
  threadsCount : Nat
  /-- ghost: identifiers of the tasks whose `execute()` has run, in order -/
  executed : List Nat
  /-- ghost: number of tasks enqueued so far; doubles as the next task id -/
  nextId : Nat
  /-- the caller inside `wait()`, if any -/
  obs : Option OPc

/-- Constant `REAL_MAX_THREADS` (ThreadPool.h, line 35). -/
def REAL_MAX_THREADS : Int := 100

/-- Conversion of a C++ `int` value to `size_t`, as performed by the usual
arithmetic conversions in `threads_.size() == activeThreads_` and
`threads_.size() < maxThreads_` (ThreadPool.h, lines 188 and 190):
reduction modulo 2^64.  A negative `int` becomes a huge unsigned value. -/
def sizeCast (n : Int) : Nat := (n % (2 : Int) ^ 64).toNat

/-- The constructor `ThreadPool(initialThreads, maxThreads = -1)`
(ThreadPool.h, lines 69-79): the `threads_` vector is value-initialized with
`min(initialThreads, REAL_MAX_THREADS)` elements (a `size_t` count),
`maxThreads_` is `min(maxThreads, REAL_MAX_THREADS)`, counters and flags are
zeroed, and each vector slot is started on `doWork`. -/
def poolInit (initialThreads maxThreads : Int) : ThreadPool :=
  { tasks_ := []
    activeThreads_ := 0
    isShutdown_ := false
    isForced_ := false
    maxThreads_ := min maxThreads REAL_MAX_THREADS
    pullHolder := none
    threads_ := fun _ => Worker.fresh
    threadsCount := sizeCast (min initialThreads REAL_MAX_THREADS)
    executed := []
    nextId := 0
    obs := none }

/-- Observer `activeThreads()` (ThreadPool.h, line 94). -/
def activeThreadsOp (s : ThreadPool) : Int := s.activeThreads_

/-- Observer `getPoolSize()` (ThreadPool.h, line 97): `threads_.size()` as an `int`. -/
def getPoolSizeOp (s : ThreadPool) : Int := (s.threadsCount : Int)

/-- Observer `getMaximumPoolSize()` (ThreadPool.h, line 100). -/
def getMaximumPoolSizeOp (s : ThreadPool) : Int := s.maxThreads_

/-- Observer `isShutdown()` (ThreadPool.h, line 103). -/
def isShutdownOp (s : ThreadPool) : Bool := s.isShutdown_

/-- Observer `isTerminated()` (ThreadPool.h, line 106). -/
def isTerminatedOp (s : ThreadPool) : Bool :=
  s.isShutdown_ && decide (s.activeThreads_ = 0)

/-- Replace worker `w`'s local state. -/
def setW (s : ThreadPool) (w : Nat) (wk : Worker) : ThreadPool :=
  { s with threads_ := fun v => if v = w then wk else s.threads_ v }

/-- Externally visible side effects of the controller operations, used to
state that a call notifies or spawns nothing. -/
inductive PoolEvent
  | notifiedOne
  | notifiedAll
  | spawnedThread
  | detachedAll
  deriving DecidableEq

/-- Operation `notifyNewTask()` (ThreadPool.h, lines 182-198), as the atomic effect of
its `pullLock_` critical section: if `threads_.size() == activeThreads_`
(comparison after `int` → `size_t` conversion) and
`threads_.size() < maxThreads_` (same conversion, so a negative `maxThreads_`
compares as huge), a new worker thread is spawned; if some thread is idle by
count, `taskAvailable_.notify_one()` is called; otherwise nothing happens. -/
def notifyNewTaskOp (s : ThreadPool) : ThreadPool × List PoolEvent :=
  if s.threadsCount = sizeCast s.activeThreads_ then
    if s.threadsCount < sizeCast s.maxThreads_ then
      ({ setW s s.threadsCount Worker.fresh with threadsCount := s.threadsCount + 1 },
        [PoolEvent.spawnedThread])
    else (s, [])
  else (s, [PoolEvent.notifiedOne])

/-- Operation `execute(fn, args...)` (ThreadPool.h, lines 132-145): if the pool is shut
down, return immediately; otherwise push a new task envelope under
`queueLock_` and call `notifyNewTask()`. -/
def executeOp (s : ThreadPool) : ThreadPool × List PoolEvent :=
  if s.isShutdown_ then (s, [])
  else
    notifyNewTaskOp { s with tasks_ := s.tasks_ ++ [s.nextId], nextId := s.nextId + 1 }

/-- A `std::future` handle in the identifier model: `some id` is a future
obtained from the envelope of task `id`; `none` is a default-constructed
(invalid) future without shared state. -/
def FutureId : Type := Option Nat

/-- Operation `submit(fn, args...)` (ThreadPool.h, lines 147-166): like `execute`, but
the envelope's future is extracted (`task.getFuture(...)`) before the push and
returned; after a shutdown a default-constructed future is returned. -/
def submitOp (s : ThreadPool) : (ThreadPool × List PoolEvent) × FutureId :=
  if s.isShutdown_ then ((s, []), none)
  else
    (notifyNewTaskOp { s with tasks_ := s.tasks_ ++ [s.nextId], nextId := s.nextId + 1 },
      some s.nextId)

/-- Whether a future is ready, in the identifier model: an invalid future is
never ready; a future of task `id` is ready once task `id` has executed
(execution is the only fulfilment of the envelope's result channel). -/
def futureReadyOp (s : ThreadPool) (fut : FutureId) : Bool :=
  match fut with
  | none => false
  | some id => decide (id ∈ s.executed)

/-- Operation `shutdown(force)` (ThreadPool.h, lines 111-127): an early return when
already shut down; otherwise set `isForced_` and `isShutdown_`, call
`notify_all` under `pullLock_`, and detach every thread when forced.  (The
waking of the sleeping workers is their own transition in the step model;
here the call is recorded as an event.) -/
def shutdownOp (force : Bool) (s : ThreadPool) : ThreadPool × List PoolEvent :=
  if s.isShutdown_ then (s, [])
  else
    ({ s with isForced_ := force, isShutdown_ := true },
      PoolEvent.notifiedAll :: if force then [PoolEvent.detachedAll] else [])

/-- The first phase of the destructor `~ThreadPool()` (ThreadPool.h, lines
82-91): `shutdown(false)` when not already shut down; afterwards the
destructor joins every thread unless the shutdown was forced. -/
def dtorShutdownPhase (s : ThreadPool) : ThreadPool :=
  if s.isShutdown_ then s else (shutdownOp false s).1

/-- Interleaving actions.  Controller-side actions (`push`, the three
`notify*` outcomes, `shutdownA`) are the atomic critical sections of
`execute`/`submit`/`notifyNewTask`/`shutdown`; `w*` actions are the worker
steps of `doWork` for a given worker index; `obs*` actions are the lock-free
reads of a thread inside `wait()`. -/
inductive Act
  /-- the `queueLock_` critical section of `execute`/`submit` (guarded by the
  `isShutdown_` check at entry): push one envelope -/
  | push
  /-- Branch of `notifyNewTask`: all workers busy by count and
  `threads_.size() < maxThreads_` after conversion, spawn a worker -/
  | notifySpawn
  /-- Branch of `notifyNewTask`: not all busy, `notify_one` wakes waiting worker `w` -/
  | notifyWake (w : Nat)
  /-- Branch of `notifyNewTask`: not all busy but nobody waiting, the signal is lost -/
  | notifyLost
  /-- Branch of `notifyNewTask`: all busy and the pool may not grow, nothing happens -/
  | notifyFull
  /-- Call `shutdown(force)` when not already shut down: set the flags and
  `notify_all` (under `pullLock_`) -/
  | shutdownA (force : Bool)
  | wLoopHead (w : Nat)
  | wAcquire (w : Nat)
  | wDecCheck (w : Nat)
  | wInnerCheck (w : Nat)
  | wReacquire (w : Nat)
  | wShutCheck (w : Nat)
  | wClaim (w : Nat)
  | wInc (w : Nat)
  | wUnlock (w : Nat)
  | wExec (w : Nat)
  /-- a thread enters `wait()` -/
  | obsBegin
  /-- Poll step: `wait()` reads `activeThreads_` -/
  | obsReadActive
  /-- Poll step: `wait()` reads `tasks_.empty()` -/
  | obsReadEmpty

/-- One interleaved step: `some s'` if the action is enabled in `s` and leads
to `s'`, `none` if it is not enabled. -/
def stepFn (s : ThreadPool) : Act → Option ThreadPool
  | Act.push =>
      if s.isShutdown_ then none
      else some { s with tasks_ := s.tasks_ ++ [s.nextId], nextId := s.nextId + 1 }
  | Act.notifySpawn =>
      if s.pullHolder = none ∧ s.threadsCount = sizeCast s.activeThreads_ ∧
          s.threadsCount < sizeCast s.maxThreads_ then
        some { setW s s.threadsCount Worker.fresh with threadsCount := s.threadsCount + 1 }
      else none
  | Act.notifyWake w =>
      if s.pullHolder = none ∧ ¬s.threadsCount = sizeCast s.activeThreads_ ∧
          w < s.threadsCount ∧ (s.threads_ w).pc = TPpc.waiting then
        some (setW s w { s.threads_ w with pc := TPpc.reacquire })
      else none
  | Act.notifyLost =>
      if s.pullHolder = none ∧ ¬s.threadsCount = sizeCast s.activeThreads_ ∧
          (∀ w, w < s.threadsCount → ¬(s.threads_ w).pc = TPpc.waiting) then
        some s
      else none
  | Act.notifyFull =>
      if s.pullHolder = none ∧ s.threadsCount = sizeCast s.activeThreads_ ∧
          ¬s.threadsCount < sizeCast s.maxThreads_ then
        some s
      else none
  | Act.shutdownA force =>
      if s.pullHolder = none ∧ s.isShutdown_ = false then
        some { s with
          isShutdown_ := true
          isForced_ := force
          threads_ := fun v =>
            if (s.threads_ v).pc = TPpc.waiting then { s.threads_ v with pc := TPpc.reacquire }
            else s.threads_ v }
      else none
  | Act.wLoopHead w =>
      if w < s.threadsCount ∧ (s.threads_ w).pc = TPpc.loopHead then
        some (setW s w { s.threads_ w with
          pc := if s.isShutdown_ then TPpc.exited else TPpc.acquire })
      else none
  | Act.wAcquire w =>
      if w < s.threadsCount ∧ (s.threads_ w).pc = TPpc.acquire ∧ s.pullHolder = none then
        some { setW s w { s.threads_ w with pc := TPpc.decCheck } with pullHolder := some w }
      else none
  | Act.wDecCheck w =>
      if w < s.threadsCount ∧ (s.threads_ w).pc = TPpc.decCheck then
        some { setW s w { s.threads_ w with pc := TPpc.innerCheck } with
          activeThreads_ :=
            if (s.threads_ w).alreadyExecuted then s.activeThreads_ - 1 else s.activeThreads_ }
      else none
  | Act.wInnerCheck w =>
      if w < s.threadsCount ∧ (s.threads_ w).pc = TPpc.innerCheck then
        if s.tasks_ = [] ∧ s.isShutdown_ = false then
          some { setW s w { s.threads_ w with pc := TPpc.waiting } with pullHolder := none }
        else
          some (setW s w { s.threads_ w with pc := TPpc.shutCheck })
      else none
  | Act.wReacquire w =>
      if w < s.threadsCount ∧ (s.threads_ w).pc = TPpc.reacquire ∧ s.pullHolder = none then
        some { setW s w { s.threads_ w with pc := TPpc.innerCheck } with pullHolder := some w }
      else none
  | Act.wShutCheck w =>
      if w < s.threadsCount ∧ (s.threads_ w).pc = TPpc.shutCheck then
        if s.isShutdown_ then
          some { setW s w { s.threads_ w with pc := TPpc.exited } with pullHolder := none }
        else
          some (setW s w { s.threads_ w with pc := TPpc.claim })
      else none
  | Act.wClaim w =>
      if w < s.threadsCount ∧ (s.threads_ w).pc = TPpc.claim then
        match s.tasks_ with
        | [] => none
        | h :: t =>
            some { setW s w { s.threads_ w with pc := TPpc.inc, claimed := some h } with
              tasks_ := t }
      else none
  | Act.wInc w =>
      if w < s.threadsCount ∧ (s.threads_ w).pc = TPpc.inc then
        some { setW s w { s.threads_ w with pc := TPpc.unlock } with
          activeThreads_ := s.activeThreads_ + 1 }
      else none
  | Act.wUnlock w =>
      if w < s.threadsCount ∧ (s.threads_ w).pc = TPpc.unlock then
        some { setW s w { s.threads_ w with pc := TPpc.exec } with pullHolder := none }
      else none
  | Act.wExec w =>
      if w < s.threadsCount ∧ (s.threads_ w).pc = TPpc.exec then
        match (s.threads_ w).claimed with
        | none => none
        | some c =>
            some { setW s w { s.threads_ w with
                pc := TPpc.loopHead, claimed := none, alreadyExecuted := true } with
              executed := s.executed ++ [c] }
      else none
  | Act.obsBegin =>
      if s.obs = none then some { s with obs := some OPc.readActive } else none
  | Act.obsReadActive =>
      if s.obs = some OPc.readActive then
        if s.activeThreads_ = 0 then some { s with obs := some OPc.readEmpty }
        else some s
      else none
  | Act.obsReadEmpty =>
      if s.obs = some OPc.readEmpty then
        if s.tasks_ = [] then some { s with obs := some OPc.returned }
        else some { s with obs := some OPc.readActive }
      else none

/-- One interleaved step of the whole system. -/
def Step (s s' : ThreadPool) : Prop := ∃ a, stepFn s a = some s'

/-- Reachability in the interleaved semantics. -/
def Reach : ThreadPool → ThreadPool → Prop := Relation.ReflTransGen Step

/-- Run a list of actions, failing if one of them is not enabled. -/
def runTrace (s : ThreadPool) : List Act → Option ThreadPool
  | [] => some s
  | a :: acts =>
      match stepFn s a with
      | some s' => runTrace s' acts
      | none => none

/-- Whether worker `w`'s program point lies inside the `pullLock_` critical
section of `doWork` (between acquiring the `unique_lock` and its release by
scope exit, `wait`, or `break`). -/
def holdsPull : TPpc → Bool
  | TPpc.decCheck => true
  | TPpc.innerCheck => true
  | TPpc.shutCheck => true
  | TPpc.claim => true
  | TPpc.inc => true
  | TPpc.unlock => true
  | _ => false

/-- Whether a worker is past the `isShutdown_` recheck of the current
iteration, i.e. committed to pulling and executing one more task. -/
def inClaimRegion : TPpc → Bool
  | TPpc.claim => true
  | TPpc.inc => true
  | TPpc.unlock => true
  | TPpc.exec => true
  | _ => false

/-- Start state of the concrete interleavings: a pool of one worker with room
to grow to two, `ThreadPool pool(1, 2)`. -/
def c2Init : ThreadPool := poolInit 1 2

/-- One task is submitted, then a thread calls `wait()`; the worker dequeues
the task but is preempted between `tasks_.pop()` and `++activeThreads_`;
`wait()` reads `activeThreads_ == 0` and then `tasks_.empty()` and exits its
loop. -/
def c2acts1 : List Act :=
  [Act.push, Act.obsBegin, Act.wLoopHead 0, Act.wAcquire 0, Act.wDecCheck 0,
    Act.wInnerCheck 0, Act.wShutCheck 0, Act.wClaim 0,
    Act.obsReadActive, Act.obsReadEmpty]

/-- State in which `wait()` has returned while the submitted task is claimed
but not yet executed. -/
def c2Mid : ThreadPool := (runTrace c2Init c2acts1).getD c2Init

/-- The worker then counts itself active and executes the task — after
`wait()` already returned. -/
def c2acts2 : List Act := [Act.wInc 0, Act.wUnlock 0, Act.wExec 0]

/-- State in which the task has executed, after `wait()` returned. -/
def c2Fin : ThreadPool := (runTrace c2Mid c2acts2).getD c2Init

/-- One task is submitted and fully executed by the worker; `shutdown(false)`
arrives before the worker's next loop-head check, so the worker exits without
ever decrementing `activeThreads_`. -/
def c4acts : List Act :=
  [Act.push, Act.wLoopHead 0, Act.wAcquire 0, Act.wDecCheck 0, Act.wInnerCheck 0,
    Act.wShutCheck 0, Act.wClaim 0, Act.wInc 0, Act.wUnlock 0, Act.wExec 0,
    Act.shutdownA false, Act.wLoopHead 0]

/-- Final state of `c4acts`: the only worker has exited after executing its
last task, yet `activeThreads_ = 1` forever. -/
def c4Bad : ThreadPool := (runTrace c2Init c4acts).getD c2Init

/-- Prefix of `c4acts` stopping right after the dequeue: the worker holds
`pullLock_`, has claimed the task, and has not yet incremented. -/
def c4MidActs : List Act :=
  [Act.push, Act.wLoopHead 0, Act.wAcquire 0, Act.wDecCheck 0, Act.wInnerCheck 0,
    Act.wShutCheck 0, Act.wClaim 0]

/-- State with the envelope removed from the queue but `activeThreads_` not
yet incremented. -/
def c4Mid : ThreadPool := (runTrace c2Init c4MidActs).getD c2Init

/-- Start state for the unbounded-growth interleaving: `ThreadPool pool(1)`,
i.e. the default `maxThreads = -1`. -/
def c5Init : ThreadPool := poolInit 1 (-1)

/-- With `maxThreads_ = -1`, a second submission while the only worker is
busy makes `notifyNewTask` spawn a new thread, because
`threads_.size() < maxThreads_` converts `-1` to `size_t`. -/
def c5acts : List Act :=
  [Act.push, Act.wLoopHead 0, Act.wAcquire 0, Act.wDecCheck 0, Act.wInnerCheck 0,
    Act.wShutCheck 0, Act.wClaim 0, Act.wInc 0, Act.wUnlock 0, Act.push,
    Act.notifySpawn]

/-- State in which the pool constructed with `maxThreads = -1` has grown. -/
def c5Grown : ThreadPool := (runTrace c5Init c5acts).getD c5Init

/-- Two tasks are submitted; the worker executes the first; `shutdown(false)`
arrives; the worker exits.  The second task is still in the queue when all
workers have exited. -/
def c10acts : List Act :=
  [Act.push, Act.push, Act.wLoopHead 0, Act.wAcquire 0, Act.wDecCheck 0,
    Act.wInnerCheck 0, Act.wShutCheck 0, Act.wClaim 0, Act.wInc 0, Act.wUnlock 0,
    Act.wExec 0, Act.shutdownA false, Act.wLoopHead 0]

/-- Final state of `c10acts`: shutdown requested, every worker exited, task 1
still queued and never executed. -/
def c10End : ThreadPool := (runTrace c2Init c10acts).getD c2Init

/-! ### The task envelope and the value-level pipeline (`Task.h`)

`Task<FunctionType, Args...>` binds a `std::packaged_task` to a tuple of
captured arguments.  A callable that may throw is modelled as a function into
`Except String β`; invoking the packaged task stores the outcome — return
value or exception — into the promise/future shared state, which the model
renders as appending the outcome to the channel's list of writes (so writing
more than once would be visible as a longer list). -/

/-- The task envelope: the stored callable (`task_`), the captured argument
tuple (`args_`), and the index of its result channel (the promise/future
shared state created with the `packaged_task`). -/
structure TaskP (α β : Type) where
  fn : α → Except String β
  args : α
  chan : Nat

/-- Method `Task::executeActually(Sequence<Nums...>)` (Task.h, lines 78-83):
`task_(std::get<Nums>(args_)...)` — apply the stored callable to the captured
arguments; the outcome (value or thrown exception) is what the packaged task
stores. -/
def TaskP.executeActually (t : TaskP α β) : Except String β := t.fn t.args

/-- The result channels: channel index ↦ list of values stored into it, in
order.  An unfulfilled channel is `[]`. -/
def Channels (β : Type) : Type := Nat → List (Except String β)

/-- Store an outcome into channel `c` (the packaged task fulfilling its
shared state). -/
def fulfill (ch : Channels β) (c : Nat) (v : Except String β) : Channels β :=
  fun c' => if c' = c then ch c' ++ [v] else ch c'

/-- Method `Task::execute()` (Task.h, lines 64-68), at the level of the channels: run
the callable on the captured arguments once and store the outcome into the
envelope's channel. -/
def execEnvelope (ch : Channels β) (t : TaskP α β) : Channels β :=
  fulfill ch t.chan t.executeActually

/-- The pool state seen by the value-level pipeline: the queue of envelopes,
the next fresh channel index, the channels, and the shutdown flag. -/
structure PoolP (α β : Type) where
  queueP : List (TaskP α β)
  nextChan : Nat
  channels : Channels β
  shutP : Bool

/-- A freshly constructed pool: empty queue, no channel written. -/
def PoolP.empty (α β : Type) : PoolP α β :=
  { queueP := [], nextChan := 0, channels := fun _ => [], shutP := false }

/-- Operation `submit(fn, args...)` at the value level: build the envelope, extract its
future (the channel index), push the envelope; after a shutdown, return a
default-constructed future. -/
def submitP (p : PoolP α β) (fn : α → Except String β) (args : α) :
    PoolP α β × Option Nat :=
  if p.shutP then (p, none)
  else
    ({ p with
        queueP := p.queueP ++ [⟨fn, args, p.nextChan⟩]
        nextChan := p.nextChan + 1 },
      some p.nextChan)

/-- Submit a whole list of (callable, arguments) pairs, collecting the
returned futures. -/
def submitAllP (p : PoolP α β) :
    List ((α → Except String β) × α) → PoolP α β × List (Option Nat)
  | [] => (p, [])
  | (f, a) :: rest =>
      let pr := submitP p f a
      let prs := submitAllP pr.1 rest
      (prs.1, pr.2 :: prs.2)

/-- A worker draining the queue: dequeue and `execute()` each envelope in
FIFO order. -/
def runQueue : List (TaskP α β) → Channels β → Channels β
  | [], ch => ch
  | t :: rest, ch => runQueue rest (execEnvelope ch t)

/-- Run every queued envelope (the effect of letting the workers drain the
queue, e.g. across `wait()`). -/
def runAllP (p : PoolP α β) : PoolP α β :=
  { p with queueP := [], channels := runQueue p.queueP p.channels }

/-- Operation `future::get()` on a one-shot channel: the first value stored, if any. -/
def futureGetP (p : PoolP α β) (fut : Option Nat) : Option (Except String β) :=
  match fut with
  | none => none
  | some c => (p.channels c).head?

/-- The envelopes created for `subs`, with channels numbered from `n`. -/
def tasksFrom (n : Nat) : List ((α → Except String β) × α) → List (TaskP α β)
  | [] => []
  | (f, a) :: rest => ⟨f, a, n⟩ :: tasksFrom (n + 1) rest

/-- The futures returned for `k` submissions whose channels start at `n`. -/
def futsFrom (n k : Nat) : List (Option Nat) :=
  (List.range k).map fun j => some (n + j)

/-- The writes that draining a queue performs on channel `c`, in order. -/
def writesTo (queue : List (TaskP α β)) (c : Nat) : List (Except String β) :=
  queue.filterMap fun t => if t.chan = c then some t.executeActually else none

/-- Pool state after submitting `subs` to a fresh pool. -/
def c1Pool (subs : List ((α → Except String β) × α)) : PoolP α β :=
  (submitAllP (PoolP.empty α β) subs).1

/-- Futures returned when submitting `subs` to a fresh pool. -/
def c1Futs (subs : List ((α → Except String β) × α)) : List (Option Nat) :=
  (submitAllP (PoolP.empty α β) subs).2

/-- Pool state after the workers have drained all of `subs`. -/
def c1Final (subs : List ((α → Except String β) × α)) : PoolP α β :=
  runAllP (c1Pool subs)

/-- The four tasks of the spec's concrete scenario: task `i` computes `i*2`
for `i` in `[1..4]`. -/
def scenarioSubs : List ((Int → Except String Int) × Int) :=
  [(fun i => Except.ok (i * 2), 1), (fun i => Except.ok (i * 2), 2),
    (fun i => Except.ok (i * 2), 3), (fun i => Except.ok (i * 2), 4)]

/-- The spec's failure scenario: a task whose callable throws, followed by an
independent task that succeeds. -/
def c7Subs : List ((Int → Except String Int) × Int) :=
  [(fun _ => Except.error "boom", 0), (fun j => Except.ok (j + 1), 41)]

/-! ### Invariants of the interleaved model -/

/-- Lock discipline of `doWork`: a worker whose program point lies inside the
`pullLock_` critical section is the holder of `pullLock_`.  In particular a
worker that has removed an envelope but not yet incremented `activeThreads_`
(point `inc`) holds the lock, so no observer that itself acquires `pullLock_`
can see the removal without the increment. -/
def LockInv (s : ThreadPool) : Prop :=
  ∀ w, w < s.threadsCount → holdsPull (s.threads_ w).pc = true →
    s.pullHolder = some w

/-- Bookkeeping of task identifiers: queued ids are fresh and distinct,
executed ids and claimed ids are never still in the queue. -/
def FreshInv (s : ThreadPool) : Prop :=
  (∀ id ∈ s.tasks_, id < s.nextId) ∧
  s.tasks_.Nodup ∧
  (∀ id ∈ s.executed, id ∉ s.tasks_ ∧ id < s.nextId) ∧
  (∀ w, w < s.threadsCount → ∀ c, (s.threads_ w).claimed = some c →
    c ∉ s.tasks_ ∧ c < s.nextId)

/-- Size bound for a pool constructed as `ThreadPool(i, m)`:
`maxThreads_` keeps its constructed value and the vector never outgrows it. -/
def BoundInv (m : Int) (s : ThreadPool) : Prop :=
  s.maxThreads_ = min m REAL_MAX_THREADS ∧
  (s.threadsCount : Int) ≤ min m REAL_MAX_THREADS

/-- After `shutdown` every worker is outside the claim region (between the
`isShutdown_` recheck and `execute()`), hence commits to no further task:
the queue and the executed list can no longer change. -/
def ShutQuiescent (s : ThreadPool) : Prop :=
  s.isShutdown_ = true ∧
  ∀ w, w < s.threadsCount → inClaimRegion (s.threads_ w).pc = false

/-! ### Basic lemmas -/

@[simp]
theorem setW_tasks (s : ThreadPool) (w : Nat) (wk : Worker) :
    (setW s w wk).tasks_ = s.tasks_ := rfl

@[simp]
theorem setW_active (s : ThreadPool) (w : Nat) (wk : Worker) :
    (setW s w wk).activeThreads_ = s.activeThreads_ := rfl

@[simp]
theorem setW_isShutdown (s : ThreadPool) (w : Nat) (wk : Worker) :
    (setW s w wk).isShutdown_ = s.isShutdown_ := rfl

@[simp]
theorem setW_maxThreads (s : ThreadPool) (w : Nat) (wk : Worker) :
    (setW s w wk).maxThreads_ = s.maxThreads_ := rfl

@[simp]
theorem setW_pullHolder (s : ThreadPool) (w : Nat) (wk : Worker) :
    (setW s w wk).pullHolder = s.pullHolder := rfl

@[simp]
theorem setW_threadsCount (s : ThreadPool) (w : Nat) (wk : Worker) :
    (setW s w wk).threadsCount = s.threadsCount := rfl

@[simp]
theorem setW_executed (s : ThreadPool) (w : Nat) (wk : Worker) :
    (setW s w wk).executed = s.executed := rfl

@[simp]
theorem setW_nextId (s : ThreadPool) (w : Nat) (wk : Worker) :
    (setW s w wk).nextId = s.nextId := rfl

@[simp]
theorem setW_threads (s : ThreadPool) (w : Nat) (wk : Worker) (v : Nat) :
    (setW s w wk).threads_ v = if v = w then wk else s.threads_ v := rfl

theorem runTrace_reach :
    ∀ (acts : List Act) (s s' : ThreadPool), runTrace s acts = some s' → Reach s s'
  | [], s, s', h => by
      simp only [runTrace, Option.some.injEq] at h
      exact h ▸ Relation.ReflTransGen.refl
  | a :: acts, s, s', h => by
      simp only [runTrace] at h
      cases ha : stepFn s a with
      | none => rw [ha] at h; cases h
      | some s1 =>
          rw [ha] at h
          exact Relation.ReflTransGen.head ⟨a, ha⟩ (runTrace_reach acts s1 s' h)

theorem reach_invariant {P : ThreadPool → Prop}
    (hP : ∀ s a s', stepFn s a = some s' → P s → P s') :
    ∀ {s t : ThreadPool}, Reach s t → P s → P t := by
  intro s t h
  induction h with
  | refl => exact id
  | tail _ hstep ih =>
      intro hs
      obtain ⟨a, ha⟩ := hstep
      exact hP _ a _ ha (ih hs)

/-! ### Claims C8, C9, C3, C6 -/

/-- Claim C8: `shutdown` is idempotent — after any `shutdown(f1)`, a second
call `shutdown(f2)` returns through the early `if (isShutdown_) return;`,
changing no pool state, notifying no workers and detaching no threads (the
second call's event list is empty); in particular `shutdown(true)` after
`shutdown(false)` leaves `isForced_` false, so the destructor still joins. -/
theorem shutdown_idempotent :
    ∀ (s : ThreadPool) (f1 f2 : Bool),
      shutdownOp f2 (shutdownOp f1 s).1 = ((shutdownOp f1 s).1, []) ∧
      (s.isShutdown_ = false →
        (shutdownOp true (shutdownOp false s).1).1.isForced_ = false) := by
  intro s f1 f2
  constructor
  · cases hs : s.isShutdown_ <;> simp [shutdownOp, hs]
  · intro hs
    simp [shutdownOp, hs]

/-- Witness for C8 at a concrete pool. -/
theorem shutdown_idempotent_witness :
    shutdownOp true (shutdownOp false (poolInit 1 2)).1 =
      ((shutdownOp false (poolInit 1 2)).1, []) ∧
    (shutdownOp true (shutdownOp false (poolInit 1 2)).1).1.isForced_ = false :=
  ⟨(shutdown_idempotent (poolInit 1 2) false true).1,
    (shutdown_idempotent (poolInit 1 2) false true).2 rfl⟩

/-- Claim C9: `execute(fn, args...)` has exactly the same effect on the pool
state and the notification behaviour as `submit(fn, args...)` with the
returned future discarded. -/
theorem execute_equals_submit_with_future_discarded :
    ∀ s : ThreadPool, executeOp s = (submitOp s).1 := by
  intro s
  cases hs : s.isShutdown_ <;> simp [executeOp, submitOp, hs]

/-- Claim C3: once a shutdown has been requested, `execute` and `submit` are
no-ops: the state is unchanged, nothing is notified or spawned (empty event
list), no envelope can be pushed (the `push` step is disabled), and `submit`
returns a default-constructed future which is never ready in any state. -/
theorem post_shutdown_submission_is_noop :
    ∀ s : ThreadPool, s.isShutdown_ = true →
      executeOp s = (s, []) ∧
      submitOp s = ((s, []), none) ∧
      stepFn s Act.push = none ∧
      (∀ s2 : ThreadPool, futureReadyOp s2 none = false) := by
  intro s hs
  refine ⟨?_, ?_, ?_, ?_⟩ <;> simp [executeOp, submitOp, stepFn, futureReadyOp, hs]

/-- Witness for C3 at a concrete shut-down pool. -/
theorem post_shutdown_submission_is_noop_witness :
    executeOp (shutdownOp false (poolInit 1 2)).1 =
      ((shutdownOp false (poolInit 1 2)).1, []) ∧
    submitOp (shutdownOp false (poolInit 1 2)).1 =
      (((shutdownOp false (poolInit 1 2)).1, []), none) ∧
    stepFn (shutdownOp false (poolInit 1 2)).1 Act.push = none ∧
    (∀ s2 : ThreadPool, futureReadyOp s2 none = false) :=
  post_shutdown_submission_is_noop (shutdownOp false (poolInit 1 2)).1 rfl

/-- Claim C6 (counterexample): the constructor clamps at
`REAL_MAX_THREADS = 100`, so `construct(101, ...)` yields a pool of 100
workers, not 101. -/
theorem construct_101_yields_100_workers :
    getPoolSizeOp (poolInit 101 (-1)) = 100 ∧
    ¬ getPoolSizeOp (poolInit 101 (-1)) = 101 := by
  constructor <;> decide

/-- Claim C6 (amended): for `threadCount ≥ 0`, construction produces
`min(threadCount, REAL_MAX_THREADS)` live workers; in particular exactly
`threadCount` of them iff `threadCount ≤ 100`. -/
theorem construct_poolsize_clamped :
    ∀ (t m : Int), 0 ≤ t →
      getPoolSizeOp (poolInit t m) = min t REAL_MAX_THREADS := by
  intro t m h0
  have h0' : 0 ≤ min t REAL_MAX_THREADS :=
    le_min h0 (by norm_num [REAL_MAX_THREADS])
  have hlt : min t REAL_MAX_THREADS < (2 : Int) ^ 64 :=
    lt_of_le_of_lt (min_le_right _ _) (by norm_num [REAL_MAX_THREADS])
  simp only [getPoolSizeOp, poolInit, sizeCast]
  rw [Int.emod_eq_of_lt h0' hlt, Int.toNat_of_nonneg h0']

/-- Witness for C6 at `threadCount = 7`. -/
theorem construct_poolsize_clamped_witness :
    getPoolSizeOp (poolInit 7 (-1)) = min 7 REAL_MAX_THREADS :=
  construct_poolsize_clamped 7 (-1) (by decide)

/-! ### Concrete interleavings -/

theorem c2Mid_run : runTrace c2Init c2acts1 = some c2Mid := rfl

theorem c2Fin_run : runTrace c2Mid c2acts2 = some c2Fin := rfl

theorem c4Bad_run : runTrace c2Init c4acts = some c4Bad := rfl

theorem c4Mid_run : runTrace c2Init c4MidActs = some c4Mid := rfl

theorem c5Grown_run : runTrace c5Init c5acts = some c5Grown := rfl

theorem c10End_run : runTrace c2Init c10acts = some c10End := rfl

/-- Claim C2 (exhibit of the divergence): an interleaving in which one task
is submitted, a thread calls `wait()`, the worker removes the envelope from
the queue, and — before `++activeThreads_` executes — `wait()`'s unlocked
polls read `activeThreads_ == 0` and `tasks_.empty()` and return (`c2Mid`).
The task submitted before `wait()` is dequeued but unexecuted at that point,
and it executes only afterwards (`c2Fin`, where `activeThreads_` has even
risen back to 1 while the waiter is already past its loop).  This contradicts
`after wait() returns, no task submitted before the call to wait() is still
pending or running` and the source comment `after wait() returns,
activeThreads() == 0`. -/
theorem wait_can_return_with_task_unexecuted :
    Reach c2Init c2Mid ∧
    c2Mid.obs = some OPc.returned ∧
    c2Mid.nextId = 1 ∧
    c2Mid.executed = [] ∧
    c2Mid.tasks_ = [] ∧
    (c2Mid.threads_ 0).claimed = some 0 ∧
    Reach c2Mid c2Fin ∧
    c2Fin.obs = some OPc.returned ∧
    c2Fin.executed = [0] ∧
    c2Fin.activeThreads_ = 1 :=
  ⟨runTrace_reach _ _ _ c2Mid_run, rfl, rfl, rfl, rfl, rfl,
    runTrace_reach _ _ _ c2Fin_run, rfl, rfl, rfl⟩

/-- Claim C4 (counterexample): it is false that a worker which has finished
executing its last task and exited can never still be counted by
`activeThreads_`.  In the reachable state `c4Bad` the only worker has
executed the task, `shutdown(false)` arrived before its next loop-head check,
the worker exited — and the deferred decrement of `activeThreads_` (performed
only at the top of the next iteration) never ran, leaving
`activeThreads_ = 1` although nothing is queued, claimed or running. -/
theorem doWork_active_count_counterexample :
    ¬ (∀ s : ThreadPool, Reach c2Init s →
        ((s.threads_ 0).pc = TPpc.exited ∧ (s.threads_ 0).alreadyExecuted = true ∧
          s.tasks_ = [] ∧ (s.threads_ 0).claimed = none) →
        s.activeThreads_ = 0) := by
  intro hclaim
  have h := hclaim c4Bad (runTrace_reach _ _ _ c4Bad_run) ⟨rfl, rfl, rfl, rfl⟩
  have h1 : c4Bad.activeThreads_ = 1 := rfl
  rw [h1] at h
  cases h

/-! ### Lock discipline of the worker loop -/

theorem stepFn_preserves_lockInv :
    ∀ (s : ThreadPool) (a : Act) (s' : ThreadPool),
      stepFn s a = some s' → LockInv s → LockInv s' := by
  intro s a s' h hI
  cases a <;> simp only [stepFn] at h
  case push =>
    split at h
    · exact Option.noConfusion h
    · injection h with h
      subst h
      exact hI
  case notifySpawn =>
    split at h
    · injection h with h
      subst h
      intro w hw hpc
      have hw2 : w < s.threadsCount + 1 := hw
      have hpc2 : holdsPull (if w = s.threadsCount then Worker.fresh
          else s.threads_ w).pc = true := hpc
      show s.pullHolder = some w
      by_cases hv : w = s.threadsCount
      · rw [if_pos hv] at hpc2
        simp [Worker.fresh, holdsPull] at hpc2
      · rw [if_neg hv] at hpc2
        exact hI w (by omega) hpc2
    · exact Option.noConfusion h
  case notifyWake w0 =>
    split at h
    · injection h with h
      subst h
      intro w hw hpc
      have hpc2 : holdsPull (if w = w0 then { s.threads_ w0 with pc := TPpc.reacquire }
          else s.threads_ w).pc = true := hpc
      show s.pullHolder = some w
      by_cases hv : w = w0
      · rw [if_pos hv] at hpc2
        simp [holdsPull] at hpc2
      · rw [if_neg hv] at hpc2
        exact hI w hw hpc2
    · exact Option.noConfusion h
  case notifyLost =>
    split at h
    · injection h with h
      subst h
      exact hI
    · exact Option.noConfusion h
  case notifyFull =>
    split at h
    · injection h with h
      subst h
      exact hI
    · exact Option.noConfusion h
  case shutdownA force =>
    split at h
    · injection h with h
      subst h
      intro w hw hpc
      have hpc2 : holdsPull (if (s.threads_ w).pc = TPpc.waiting
          then { s.threads_ w with pc := TPpc.reacquire }
          else s.threads_ w).pc = true := hpc
      show s.pullHolder = some w
      by_cases hwp : (s.threads_ w).pc = TPpc.waiting
      · rw [if_pos hwp] at hpc2
        simp [holdsPull] at hpc2
      · rw [if_neg hwp] at hpc2
        exact hI w hw hpc2
    · exact Option.noConfusion h
  case wLoopHead w0 =>
    split at h
    · injection h with h
      subst h
      intro w hw hpc
      have hpc2 : holdsPull (if w = w0 then { s.threads_ w0 with
          pc := if s.isShutdown_ then TPpc.exited else TPpc.acquire }
          else s.threads_ w).pc = true := hpc
      show s.pullHolder = some w
      by_cases hv : w = w0
      · rw [if_pos hv] at hpc2
        cases hs : s.isShutdown_ <;> simp [hs, holdsPull] at hpc2
      · rw [if_neg hv] at hpc2
        exact hI w hw hpc2
    · exact Option.noConfusion h
  case wAcquire w0 =>
    split at h
    · rename_i hg
      obtain ⟨hg1, hg2, hg3⟩ := hg
      injection h with h
      subst h
      intro w hw hpc
      have hpc2 : holdsPull (if w = w0 then { s.threads_ w0 with pc := TPpc.decCheck }
          else s.threads_ w).pc = true := hpc
      show some w0 = some w
      by_cases hv : w = w0
      · rw [hv]
      · rw [if_neg hv] at hpc2
        have e := hI w hw hpc2
        rw [hg3] at e
        exact Option.noConfusion e
    · exact Option.noConfusion h
  case wDecCheck w0 =>
    split at h
    · rename_i hg
      obtain ⟨hg1, hg2⟩ := hg
      injection h with h
      subst h
      intro w hw hpc
      have hpc2 : holdsPull (if w = w0 then { s.threads_ w0 with pc := TPpc.innerCheck }
          else s.threads_ w).pc = true := hpc
      show s.pullHolder = some w
      by_cases hv : w = w0
      · rw [hv]
        exact hI w0 hg1 (by rw [hg2]; rfl)
      · rw [if_neg hv] at hpc2
        exact hI w hw hpc2
    · exact Option.noConfusion h
  case wInnerCheck w0 =>
    split at h
    · rename_i hg
      obtain ⟨hg1, hg2⟩ := hg
      split at h
      · injection h with h
        subst h
        intro w hw hpc
        have hpc2 : holdsPull (if w = w0 then { s.threads_ w0 with pc := TPpc.waiting }
            else s.threads_ w).pc = true := hpc
        show none = some w
        by_cases hv : w = w0
        · rw [if_pos hv] at hpc2
          simp [holdsPull] at hpc2
        · rw [if_neg hv] at hpc2
          have e1 := hI w hw hpc2
          have e2 := hI w0 hg1 (by rw [hg2]; rfl)
          rw [e1] at e2
          injection e2 with e2
          exact absurd e2 hv
      · injection h with h
        subst h
        intro w hw hpc
        have hpc2 : holdsPull (if w = w0 then { s.threads_ w0 with pc := TPpc.shutCheck }
            else s.threads_ w).pc = true := hpc
        show s.pullHolder = some w
        by_cases hv : w = w0
        · rw [hv]
          exact hI w0 hg1 (by rw [hg2]; rfl)
        · rw [if_neg hv] at hpc2
          exact hI w hw hpc2
    · exact Option.noConfusion h
  case wReacquire w0 =>
    split at h
    · rename_i hg
      obtain ⟨hg1, hg2, hg3⟩ := hg
      injection h with h
      subst h
      intro w hw hpc
      have hpc2 : holdsPull (if w = w0 then { s.threads_ w0 with pc := TPpc.innerCheck }
          else s.threads_ w).pc = true := hpc
      show some w0 = some w
      by_cases hv : w = w0
      · rw [hv]
      · rw [if_neg hv] at hpc2
        have e := hI w hw hpc2
        rw [hg3] at e
        exact Option.noConfusion e
    · exact Option.noConfusion h
  case wShutCheck w0 =>
    split at h
    · rename_i hg
      obtain ⟨hg1, hg2⟩ := hg
      split at h
      · injection h with h
        subst h
        intro w hw hpc
        have hpc2 : holdsPull (if w = w0 then { s.threads_ w0 with pc := TPpc.exited }
            else s.threads_ w).pc = true := hpc
        show none = some w
        by_cases hv : w = w0
        · rw [if_pos hv] at hpc2
          simp [holdsPull] at hpc2
        · rw [if_neg hv] at hpc2
          have e1 := hI w hw hpc2
          have e2 := hI w0 hg1 (by rw [hg2]; rfl)
          rw [e1] at e2
          injection e2 with e2
          exact absurd e2 hv
      · injection h with h
        subst h
        intro w hw hpc
        have hpc2 : holdsPull (if w = w0 then { s.threads_ w0 with pc := TPpc.claim }
            else s.threads_ w).pc = true := hpc
        show s.pullHolder = some w
        by_cases hv : w = w0
        · rw [hv]
          exact hI w0 hg1 (by rw [hg2]; rfl)
        · rw [if_neg hv] at hpc2
          exact hI w hw hpc2
    · exact Option.noConfusion h
  case wClaim w0 =>
    split at h
    · rename_i hg
      obtain ⟨hg1, hg2⟩ := hg
      split at h
      · exact Option.noConfusion h
      · rename_i hd tl heq
        injection h with h
        subst h
        intro w hw hpc
        have hpc2 : holdsPull (if w = w0 then { s.threads_ w0 with
            pc := TPpc.inc, claimed := some hd }
            else s.threads_ w).pc = true := hpc
        show s.pullHolder = some w
        by_cases hv : w = w0
        · rw [hv]
          exact hI w0 hg1 (by rw [hg2]; rfl)
        · rw [if_neg hv] at hpc2
          exact hI w hw hpc2
    · exact Option.noConfusion h
  case wInc w0 =>
    split at h
    · rename_i hg
      obtain ⟨hg1, hg2⟩ := hg
      injection h with h
      subst h
      intro w hw hpc
      have hpc2 : holdsPull (if w = w0 then { s.threads_ w0 with pc := TPpc.unlock }
          else s.threads_ w).pc = true := hpc
      show s.pullHolder = some w
      by_cases hv : w = w0
      · rw [hv]
        exact hI w0 hg1 (by rw [hg2]; rfl)
      · rw [if_neg hv] at hpc2
        exact hI w hw hpc2
    · exact Option.noConfusion h
  case wUnlock w0 =>
    split at h
    · rename_i hg
      obtain ⟨hg1, hg2⟩ := hg
      injection h with h
      subst h
      intro w hw hpc
      have hpc2 : holdsPull (if w = w0 then { s.threads_ w0 with pc := TPpc.exec }
          else s.threads_ w).pc = true := hpc
      show none = some w
      by_cases hv : w = w0
      · rw [if_pos hv] at hpc2
        simp [holdsPull] at hpc2
      · rw [if_neg hv] at hpc2
        have e1 := hI w hw hpc2
        have e2 := hI w0 hg1 (by rw [hg2]; rfl)
        rw [e1] at e2
        injection e2 with e2
        exact absurd e2 hv
    · exact Option.noConfusion h
  case wExec w0 =>
    split at h
    · rename_i hg
      obtain ⟨hg1, hg2⟩ := hg
      split at h
      · exact Option.noConfusion h
      · rename_i c0 heq
        injection h with h
        subst h
        intro w hw hpc
        have hpc2 : holdsPull (if w = w0 then { s.threads_ w0 with
            pc := TPpc.loopHead, claimed := none, alreadyExecuted := true }
            else s.threads_ w).pc = true := hpc
        show s.pullHolder = some w
        by_cases hv : w = w0
        · rw [if_pos hv] at hpc2
          simp [holdsPull] at hpc2
        · rw [if_neg hv] at hpc2
          exact hI w hw hpc2
    · exact Option.noConfusion h
  case obsBegin =>
    split at h
    · injection h with h
      subst h
      exact hI
    · exact Option.noConfusion h
  case obsReadActive =>
    split at h
    · split at h <;> (injection h with h; subst h; exact hI)
    · exact Option.noConfusion h
  case obsReadEmpty =>
    split at h
    · split at h <;> (injection h with h; subst h; exact hI)
    · exact Option.noConfusion h

/-- Claim C5 (counterexample): `poolSize() <= maxThreads` does not hold,
neither for the default `maxThreads = -1` — where it fails already at
construction and where, because `threads_.size() < maxThreads_` converts the
`int` `-1` to `size_t`, `notifyNewTask` spawns beyond the configured maximum
(reachable state `c5Grown` has 2 threads although `maxThreads = -1`) — nor
when the initial thread count exceeds a nonnegative maximum, as in
`ThreadPool(5, 2)`. -/
theorem poolsize_bound_counterexample :
    ¬ (getPoolSizeOp (poolInit 1 (-1)) ≤ -1) ∧
    (Reach c5Init c5Grown ∧ getPoolSizeOp c5Grown = 2 ∧
      getMaximumPoolSizeOp c5Grown = -1) ∧
    ¬ (getPoolSizeOp (poolInit 5 2) ≤ 2) := by
  refine ⟨by decide, ⟨runTrace_reach _ _ _ c5Grown_run, rfl, rfl⟩, by decide⟩

theorem sizeCast_eq (n : Int) (h0 : 0 ≤ n) (hlt : n < (2 : Int) ^ 64) :
    (sizeCast n : Int) = n := by
  unfold sizeCast
  rw [Int.emod_eq_of_lt h0 hlt, Int.toNat_of_nonneg h0]

theorem stepFn_preserves_boundInv (m : Int) (h0 : 0 ≤ min m REAL_MAX_THREADS) :
    ∀ (s : ThreadPool) (a : Act) (s' : ThreadPool),
      stepFn s a = some s' → BoundInv m s → BoundInv m s' := by
  intro s a s' h hB
  obtain ⟨hB1, hB2⟩ := hB
  cases a <;> simp only [stepFn] at h
  case notifySpawn =>
    split at h
    · rename_i hg
      obtain ⟨hg1, hg2, hg3⟩ := hg
      injection h with h
      subst h
      refine ⟨hB1, ?_⟩
      show ((s.threadsCount + 1 : Nat) : Int) ≤ min m REAL_MAX_THREADS
      rw [hB1] at hg3
      have hse : (sizeCast (min m REAL_MAX_THREADS) : Int) = min m REAL_MAX_THREADS :=
        sizeCast_eq _ h0
          (lt_of_le_of_lt (min_le_right _ _) (by norm_num [REAL_MAX_THREADS]))
      rw [← hse]
      exact_mod_cast hg3
    · exact Option.noConfusion h
  all_goals
    (repeat' split at h) <;>
      first
        | exact Option.noConfusion h
        | (injection h with h; subst h; exact ⟨hB1, hB2⟩)

theorem freshInv_setW_claimed_eq (s : ThreadPool) (w0 : Nat) (wk : Worker)
    (hcl : wk.claimed = (s.threads_ w0).claimed) (hF : FreshInv s) :
    FreshInv (setW s w0 wk) := by
  obtain ⟨F1, F2, F3, F4⟩ := hF
  refine ⟨F1, F2, F3, ?_⟩
  intro w hw c hc
  have hc2 : (if w = w0 then wk else s.threads_ w).claimed = some c := hc
  by_cases hv : w = w0
  · rw [if_pos hv] at hc2
    rw [hcl] at hc2
    rw [hv] at hw
    exact F4 w0 hw c hc2
  · rw [if_neg hv] at hc2
    exact F4 w hw c hc2

theorem stepFn_preserves_freshInv :
    ∀ (s : ThreadPool) (a : Act) (s' : ThreadPool),
      stepFn s a = some s' → FreshInv s → FreshInv s' := by
  intro s a s' h hF
  obtain ⟨F1, F2, F3, F4⟩ := hF
  cases a <;> simp only [stepFn] at h
  case push =>
    split at h
    · exact Option.noConfusion h
    · injection h with h
      subst h
      refine ⟨?_, ?_, ?_, ?_⟩
      · intro id hid
        rcases List.mem_append.mp hid with h1 | h2
        · exact Nat.lt_succ_of_lt (F1 id h1)
        · have : id = s.nextId := by simpa using h2
          show id < s.nextId + 1
          omega
      · rw [List.nodup_append]
        refine ⟨F2, List.nodup_singleton _, ?_⟩
        intro a ha hb
        have hab : a = s.nextId := by simpa using hb
        have := F1 a ha
        omega
      · intro id hid
        obtain ⟨hni, hlt⟩ := F3 id hid
        refine ⟨?_, Nat.lt_succ_of_lt hlt⟩
        intro hmem
        rcases List.mem_append.mp hmem with h1 | h2
        · exact hni h1
        · have : id = s.nextId := by simpa using h2
          omega
      · intro w hw c hc
        obtain ⟨hni, hlt⟩ := F4 w hw c hc
        refine ⟨?_, Nat.lt_succ_of_lt hlt⟩
        intro hmem
        rcases List.mem_append.mp hmem with h1 | h2
        · exact hni h1
        · have : c = s.nextId := by simpa using h2
          omega
  case notifySpawn =>
    split at h
    · injection h with h
      subst h
      refine ⟨F1, F2, F3, ?_⟩
      intro w hw c hc
      have hw2 : w < s.threadsCount + 1 := hw
      have hc2 : (if w = s.threadsCount then Worker.fresh
          else s.threads_ w).claimed = some c := hc
      by_cases hv : w = s.threadsCount
      · rw [if_pos hv] at hc2
        exact Option.noConfusion hc2
      · rw [if_neg hv] at hc2
        exact F4 w (by omega) c hc2
    · exact Option.noConfusion h
  case notifyWake w0 =>
    split at h
    · injection h with h
      subst h
      exact freshInv_setW_claimed_eq s w0 _ rfl ⟨F1, F2, F3, F4⟩
    · exact Option.noConfusion h
  case notifyLost =>
    split at h
    · injection h with h
      subst h
      exact ⟨F1, F2, F3, F4⟩
    · exact Option.noConfusion h
  case notifyFull =>
    split at h
    · injection h with h
      subst h
      exact ⟨F1, F2, F3, F4⟩
    · exact Option.noConfusion h
  case shutdownA force =>
    split at h
    · injection h with h
      subst h
      refine ⟨F1, F2, F3, ?_⟩
      intro w hw c hc
      have hc2 : (if (s.threads_ w).pc = TPpc.waiting
          then { s.threads_ w with pc := TPpc.reacquire }
          else s.threads_ w).claimed = some c := hc
      by_cases hwp : (s.threads_ w).pc = TPpc.waiting
      · rw [if_pos hwp] at hc2
        exact F4 w hw c hc2
      · rw [if_neg hwp] at hc2
        exact F4 w hw c hc2
    · exact Option.noConfusion h
  case wLoopHead w0 =>
    split at h
    · injection h with h
      subst h
      exact freshInv_setW_claimed_eq s w0 _ rfl ⟨F1, F2, F3, F4⟩
    · exact Option.noConfusion h
  case wAcquire w0 =>
    split at h
    · injection h with h
      subst h
      exact freshInv_setW_claimed_eq s w0 _ rfl ⟨F1, F2, F3, F4⟩
    · exact Option.noConfusion h
  case wDecCheck w0 =>
    split at h
    · injection h with h
      subst h
      exact freshInv_setW_claimed_eq s w0 _ rfl ⟨F1, F2, F3, F4⟩
    · exact Option.noConfusion h
  case wInnerCheck w0 =>
    split at h
    · split at h <;>
        (injection h with h; subst h;
          exact freshInv_setW_claimed_eq s w0 _ rfl ⟨F1, F2, F3, F4⟩)
    · exact Option.noConfusion h
  case wReacquire w0 =>
    split at h
    · injection h with h
      subst h
      exact freshInv_setW_claimed_eq s w0 _ rfl ⟨F1, F2, F3, F4⟩
    · exact Option.noConfusion h
  case wShutCheck w0 =>
    split at h
    · split at h <;>
        (injection h with h; subst h;
          exact freshInv_setW_claimed_eq s w0 _ rfl ⟨F1, F2, F3, F4⟩)
    · exact Option.noConfusion h
  case wClaim w0 =>
    split at h
    · rename_i hg
      obtain ⟨hg1, hg2⟩ := hg
      split at h
      · exact Option.noConfusion h
      · rename_i hd tl heq
        injection h with h
        subst h
        have hcons : (hd :: tl).Nodup := by
          rw [← heq]; exact F2
        refine ⟨?_, ?_, ?_, ?_⟩
        · intro id hid
          exact F1 id (by rw [heq]; exact List.mem_cons_of_mem hd hid)
        · exact hcons.of_cons
        · intro id hid
          obtain ⟨hni, hlt⟩ := F3 id hid
          rw [heq] at hni
          exact ⟨fun hm => hni (List.mem_cons_of_mem _ hm), hlt⟩
        · intro w hw c hc
          have hc2 : (if w = w0 then { s.threads_ w0 with
              pc := TPpc.inc, claimed := some hd }
              else s.threads_ w).claimed = some c := hc
          by_cases hv : w = w0
          · rw [if_pos hv] at hc2
            injection hc2 with hc2
            refine ⟨?_, ?_⟩
            · rw [← hc2]
              exact (List.nodup_cons.mp hcons).1
            · rw [← hc2]
              exact F1 hd (by rw [heq]; exact List.mem_cons_self hd tl)
          · rw [if_neg hv] at hc2
            obtain ⟨hni, hlt⟩ := F4 w hw c hc2
            rw [heq] at hni
            exact ⟨fun hm => hni (List.mem_cons_of_mem _ hm), hlt⟩
    · exact Option.noConfusion h
  case wInc w0 =>
    split at h
    · injection h with h
      subst h
      exact freshInv_setW_claimed_eq s w0 _ rfl ⟨F1, F2, F3, F4⟩
    · exact Option.noConfusion h
  case wUnlock w0 =>
    split at h
    · injection h with h
      subst h
      exact freshInv_setW_claimed_eq s w0 _ rfl ⟨F1, F2, F3, F4⟩
    · exact Option.noConfusion h
  case wExec w0 =>
    split at h
    · rename_i hg
      obtain ⟨hg1, hg2⟩ := hg
      split at h
      · exact Option.noConfusion h
      · rename_i c0 heq
        injection h with h
        subst h
        refine ⟨F1, F2, ?_, ?_⟩
        · intro id hid
          rcases List.mem_append.mp hid with h1 | h2
          · exact F3 id h1
          · have hidc : id = c0 := by simpa using h2
            rw [hidc]
            exact F4 w0 hg1 c0 heq
        · intro w hw c hc
          have hc2 : (if w = w0 then { s.threads_ w0 with
              pc := TPpc.loopHead, claimed := none, alreadyExecuted := true }
              else s.threads_ w).claimed = some c := hc
          by_cases hv : w = w0
          · rw [if_pos hv] at hc2
            exact Option.noConfusion hc2
          · rw [if_neg hv] at hc2
            exact F4 w hw c hc2
    · exact Option.noConfusion h
  case obsBegin =>
    split at h
    · injection h with h
      subst h
      exact ⟨F1, F2, F3, F4⟩
    · exact Option.noConfusion h
  case obsReadActive =>
    split at h
    · split at h <;> (injection h with h; subst h; exact ⟨F1, F2, F3, F4⟩)
    · exact Option.noConfusion h
  case obsReadEmpty =>
    split at h
    · split at h <;> (injection h with h; subst h; exact ⟨F1, F2, F3, F4⟩)
    · exact Option.noConfusion h

theorem stepFn_preserves_shutQuiescent :
    ∀ (s : ThreadPool) (a : Act) (s' : ThreadPool),
      stepFn s a = some s' → ShutQuiescent s →
      ShutQuiescent s' ∧ s'.tasks_ = s.tasks_ ∧ s'.executed = s.executed := by
  intro s a s' h hq
  obtain ⟨hq1, hq2⟩ := hq
  cases a <;> simp only [stepFn] at h
  case push =>
    split at h
    · exact Option.noConfusion h
    · rename_i hns
      rw [hq1] at hns
      exact absurd rfl hns
  case notifySpawn =>
    split at h
    · injection h with h
      subst h
      refine ⟨⟨hq1, ?_⟩, rfl, rfl⟩
      intro w hw
      have hw2 : w < s.threadsCount + 1 := hw
      show inClaimRegion (if w = s.threadsCount then Worker.fresh
          else s.threads_ w).pc = false
      by_cases hv : w = s.threadsCount
      · rw [if_pos hv]
        rfl
      · rw [if_neg hv]
        exact hq2 w (by omega)
    · exact Option.noConfusion h
  case notifyWake w0 =>
    split at h
    · injection h with h
      subst h
      refine ⟨⟨hq1, ?_⟩, rfl, rfl⟩
      intro w hw
      show inClaimRegion (if w = w0 then { s.threads_ w0 with pc := TPpc.reacquire }
          else s.threads_ w).pc = false
      by_cases hv : w = w0
      · rw [if_pos hv]
        rfl
      · rw [if_neg hv]
        exact hq2 w hw
    · exact Option.noConfusion h
  case notifyLost =>
    split at h
    · injection h with h
      subst h
      exact ⟨⟨hq1, hq2⟩, rfl, rfl⟩
    · exact Option.noConfusion h
  case notifyFull =>
    split at h
    · injection h with h
      subst h
      exact ⟨⟨hq1, hq2⟩, rfl, rfl⟩
    · exact Option.noConfusion h
  case shutdownA force =>
    split at h
    · rename_i hg
      rw [hq1] at hg
      simpa using hg.2
    · exact Option.noConfusion h
  case wLoopHead w0 =>
    split at h
    · injection h with h
      subst h
      refine ⟨⟨hq1, ?_⟩, rfl, rfl⟩
      intro w hw
      show inClaimRegion (if w = w0 then { s.threads_ w0 with pc := TPpc.exited }
          else s.threads_ w).pc = false
      by_cases hv : w = w0
      · rw [if_pos hv]
        rfl
      · rw [if_neg hv]
        exact hq2 w hw
    · exact Option.noConfusion h
  case wAcquire w0 =>
    split at h
    · injection h with h
      subst h
      refine ⟨⟨hq1, ?_⟩, rfl, rfl⟩
      intro w hw
      show inClaimRegion (if w = w0 then { s.threads_ w0 with pc := TPpc.decCheck }
          else s.threads_ w).pc = false
      by_cases hv : w = w0
      · rw [if_pos hv]
        rfl
      · rw [if_neg hv]
        exact hq2 w hw
    · exact Option.noConfusion h
  case wDecCheck w0 =>
    split at h
    · injection h with h
      subst h
      refine ⟨⟨hq1, ?_⟩, rfl, rfl⟩
      intro w hw
      show inClaimRegion (if w = w0 then { s.threads_ w0 with pc := TPpc.innerCheck }
          else s.threads_ w).pc = false
      by_cases hv : w = w0
      · rw [if_pos hv]
        rfl
      · rw [if_neg hv]
        exact hq2 w hw
    · exact Option.noConfusion h
  case wInnerCheck w0 =>
    split at h
    · split at h
      · injection h with h
        subst h
        refine ⟨⟨hq1, ?_⟩, rfl, rfl⟩
        intro w hw
        show inClaimRegion (if w = w0 then { s.threads_ w0 with pc := TPpc.waiting }
            else s.threads_ w).pc = false
        by_cases hv : w = w0
        · rw [if_pos hv]
          rfl
        · rw [if_neg hv]
          exact hq2 w hw
      · injection h with h
        subst h
        refine ⟨⟨hq1, ?_⟩, rfl, rfl⟩
        intro w hw
        show inClaimRegion (if w = w0 then { s.threads_ w0 with pc := TPpc.shutCheck }
            else s.threads_ w).pc = false
        by_cases hv : w = w0
        · rw [if_pos hv]
          rfl
        · rw [if_neg hv]
          exact hq2 w hw
    · exact Option.noConfusion h
  case wReacquire w0 =>
    split at h
    · injection h with h
      subst h
      refine ⟨⟨hq1, ?_⟩, rfl, rfl⟩
      intro w hw
      show inClaimRegion (if w = w0 then { s.threads_ w0 with pc := TPpc.innerCheck }
          else s.threads_ w).pc = false
      by_cases hv : w = w0
      · rw [if_pos hv]
        rfl
      · rw [if_neg hv]
        exact hq2 w hw
    · exact Option.noConfusion h
  case wShutCheck w0 =>
    split at h
    · injection h with h
      subst h
      refine ⟨⟨hq1, ?_⟩, rfl, rfl⟩
      intro w hw
      show inClaimRegion (if w = w0 then { s.threads_ w0 with pc := TPpc.exited }
          else s.threads_ w).pc = false
      by_cases hv : w = w0
      · rw [if_pos hv]
        rfl
      · rw [if_neg hv]
        exact hq2 w hw
    · exact Option.noConfusion h
  case wClaim w0 =>
    split at h
    · rename_i hg
      have hx := hq2 w0 hg.1
      rw [hg.2] at hx
      simp [inClaimRegion] at hx
    · exact Option.noConfusion h
  case wInc w0 =>
    split at h
    · rename_i hg
      have hx := hq2 w0 hg.1
      rw [hg.2] at hx
      simp [inClaimRegion] at hx
    · exact Option.noConfusion h
  case wUnlock w0 =>
    split at h
    · rename_i hg
      have hx := hq2 w0 hg.1
      rw [hg.2] at hx
      simp [inClaimRegion] at hx
    · exact Option.noConfusion h
  case wExec w0 =>
    split at h
    · rename_i hg
      have hx := hq2 w0 hg.1
      rw [hg.2] at hx
      simp [inClaimRegion] at hx
    · exact Option.noConfusion h
  case obsBegin =>
    split at h
    · injection h with h
      subst h
      exact ⟨⟨hq1, hq2⟩, rfl, rfl⟩
    · exact Option.noConfusion h
  case obsReadActive =>
    split at h
    · split at h <;> (injection h with h; subst h; exact ⟨⟨hq1, hq2⟩, rfl, rfl⟩)
    · exact Option.noConfusion h
  case obsReadEmpty =>
    split at h
    · split at h <;> (injection h with h; subst h; exact ⟨⟨hq1, hq2⟩, rfl, rfl⟩)
    · exact Option.noConfusion h

theorem reach_shutQuiescent :
    ∀ {s t : ThreadPool}, Reach s t → ShutQuiescent s →
      ShutQuiescent t ∧ t.tasks_ = s.tasks_ ∧ t.executed = s.executed := by
  intro s t h
  induction h with
  | refl => exact fun hq => ⟨hq, rfl, rfl⟩
  | tail _ hstep ih =>
      intro hq
      obtain ⟨a, ha⟩ := hstep
      obtain ⟨hq1, ht1, he1⟩ := ih hq
      obtain ⟨hq2, ht2, he2⟩ := stepFn_preserves_shutQuiescent _ a _ ha hq1
      exact ⟨hq2, ht2.trans ht1, he2.trans he1⟩

/-- Claim C4 (amended): in `doWork` the envelope is removed from the queue
first and `activeThreads_` is incremented immediately afterwards, both inside
the same `pullLock_` critical section — formally, in every reachable state a
worker whose program point lies between acquiring and releasing `pullLock_`
(in particular one that has dequeued but not yet incremented) is the holder
of `pullLock_`, so the two writes are seen together by any observer that
acquires `pullLock_` (the lock-free `wait()`/`isTerminated()` reads can still
fall between them).  After `execute()` returns, the decrement of
`activeThreads_` is deferred to the top of the worker's next iteration, and a
worker that exits because shutdown is observed at the loop head after
executing its last task never performs it: the reachable state `c4Bad` has
its only worker exited after executing, with `activeThreads_` still 1. -/
theorem doWork_lock_discipline_and_skipped_decrement :
    (∀ (i m : Int) (s : ThreadPool), Reach (poolInit i m) s → LockInv s) ∧
    (Reach c2Init c4Bad ∧ (c4Bad.threads_ 0).pc = TPpc.exited ∧
      (c4Bad.threads_ 0).alreadyExecuted = true ∧ c4Bad.isShutdown_ = true ∧
      c4Bad.tasks_ = [] ∧ c4Bad.executed = [0] ∧ c4Bad.activeThreads_ = 1 ∧
      isTerminatedOp c4Bad = false) := by
  constructor
  · intro i m s hr
    refine reach_invariant stepFn_preserves_lockInv hr ?_
    intro w hw hpc
    simp [poolInit, Worker.fresh, holdsPull] at hpc
  · exact ⟨runTrace_reach _ _ _ c4Bad_run, rfl, rfl, rfl, rfl, rfl, rfl, rfl⟩

/-- Witness for C4 at the reachable state `c4Mid`, in which worker 0 has
dequeued the envelope (point `inc`, claimed task 0) and indeed holds
`pullLock_`. -/
theorem doWork_lock_discipline_witness :
    c4Mid.pullHolder = some 0 ∧ (c4Mid.threads_ 0).pc = TPpc.inc ∧
    (c4Mid.threads_ 0).claimed = some 0 :=
  ⟨doWork_lock_discipline_and_skipped_decrement.1 1 2 c4Mid
      (runTrace_reach _ _ _ c4Mid_run) 0 (by decide) (by decide),
    rfl, rfl⟩

/-- Claim C5 (amended): for a pool constructed as `ThreadPool(i, m)` with
`0 ≤ i ≤ m`, `poolSize() <= maxThreads` holds in every reachable state:
the constructor clamp keeps the initial size at `min i 100 ≤ min m 100`, and
`notifyNewTask` spawns only when `threads_.size() < maxThreads_`, which for a
nonnegative `maxThreads_` is the genuine numeric comparison.  (For the
default `maxThreads = -1` the bound fails — see the counterexample.) -/
theorem poolsize_bounded_for_nonneg_limits :
    ∀ (i m : Int) (s : ThreadPool), 0 ≤ i → i ≤ m →
      Reach (poolInit i m) s → getPoolSizeOp s ≤ m := by
  intro i m s h0 him hr
  have h0m : (0 : Int) ≤ min m REAL_MAX_THREADS :=
    le_min (le_trans h0 him) (by norm_num [REAL_MAX_THREADS])
  have hB : BoundInv m s := by
    refine reach_invariant (stepFn_preserves_boundInv m h0m) hr ⟨rfl, ?_⟩
    show ((sizeCast (min i REAL_MAX_THREADS) : Nat) : Int) ≤ min m REAL_MAX_THREADS
    have h0i : (0 : Int) ≤ min i REAL_MAX_THREADS :=
      le_min h0 (by norm_num [REAL_MAX_THREADS])
    rw [sizeCast_eq _ h0i
      (lt_of_le_of_lt (min_le_right _ _) (by norm_num [REAL_MAX_THREADS]))]
    exact min_le_min him (le_refl _)
  exact le_trans hB.2 (min_le_left _ _)

/-- Witness for C5 at a concrete pool `ThreadPool(1, 2)`. -/
theorem poolsize_bounded_witness : getPoolSizeOp (poolInit 1 2) ≤ 2 :=
  poolsize_bounded_for_nonneg_limits 1 2 (poolInit 1 2) (by decide) (by decide)
    Relation.ReflTransGen.refl

/-- Claim C10: destroying a pool that was not shut down does not drain the
queue: the destructor immediately performs `shutdown(false)` — which leaves
the queue untouched, sets `isShutdown_` and leaves `isForced_` false, so the
destructor then joins — and once shutdown has been requested and every worker
has exited (the situation after the joins return), every envelope still in
the queue was never executed and never will be: its id stays in the queue and
out of the executed list in every further reachable state, so its future is
never fulfilled. -/
theorem destructor_abandons_queued_tasks :
    (∀ s : ThreadPool, s.isShutdown_ = false →
      dtorShutdownPhase s = (shutdownOp false s).1 ∧
      (dtorShutdownPhase s).tasks_ = s.tasks_ ∧
      (dtorShutdownPhase s).isShutdown_ = true ∧
      (dtorShutdownPhase s).isForced_ = false) ∧
    (∀ (i m : Int) (s : ThreadPool), Reach (poolInit i m) s →
      s.isShutdown_ = true →
      (∀ w, w < s.threadsCount → (s.threads_ w).pc = TPpc.exited) →
      ∀ id ∈ s.tasks_, id ∉ s.executed ∧
        ∀ t : ThreadPool, Reach s t → id ∈ t.tasks_ ∧ id ∉ t.executed) := by
  constructor
  · intro s hs
    refine ⟨?_, ?_, ?_, ?_⟩ <;> simp [dtorShutdownPhase, shutdownOp, hs]
  · intro i m s hr hsd hexit id hid
    have hF : FreshInv s := by
      refine reach_invariant stepFn_preserves_freshInv hr ?_
      refine ⟨?_, ?_, ?_, ?_⟩
      · intro x hx
        simp [poolInit] at hx
      · simp [poolInit]
      · intro x hx
        simp [poolInit] at hx
      · intro w hw c hc
        simp [poolInit, Worker.fresh] at hc
    have hnotex : id ∉ s.executed := fun hex => (hF.2.2.1 id hex).1 hid
    have hqs : ShutQuiescent s := by
      refine ⟨hsd, ?_⟩
      intro w hw
      rw [hexit w hw]
      rfl
    refine ⟨hnotex, ?_⟩
    intro t ht
    obtain ⟨-, htasks, hexec⟩ := reach_shutQuiescent ht hqs
    rw [htasks, hexec]
    exact ⟨hid, hnotex⟩

/-- Witness for C10 at the reachable state `c10End`: shutdown requested, all
workers exited, task 1 still queued and unexecuted. -/
theorem destructor_abandons_queued_tasks_witness :
    1 ∈ c10End.tasks_ ∧ 1 ∉ c10End.executed :=
  (destructor_abandons_queued_tasks.2 1 2 c10End (runTrace_reach _ _ _ c10End_run)
      rfl (by decide) 1 (by decide)).2 c10End Relation.ReflTransGen.refl

/-! ### The value-level pipeline: lemmas -/

theorem futsFrom_succ (n k : Nat) : futsFrom n (k + 1) = some n :: futsFrom (n + 1) k := by
  simp only [futsFrom, List.range_succ_eq_map, List.map_cons, Nat.add_zero, List.map_map]
  refine congrArg (some n :: ·) ?_
  apply List.map_congr_left
  intro x hx
  show some (n + (x + 1)) = some (n + 1 + x)
  exact congrArg some (by omega)

theorem writesTo_cons (t : TaskP α β) (rest : List (TaskP α β)) (c : Nat) :
    writesTo (t :: rest) c =
      (if t.chan = c then [t.executeActually] else []) ++ writesTo rest c := by
  by_cases hc : t.chan = c <;> simp [writesTo, List.filterMap_cons, hc]

theorem runQueue_channels (queue : List (TaskP α β)) :
    ∀ (ch : Channels β) (c : Nat), runQueue queue ch c = ch c ++ writesTo queue c := by
  induction queue with
  | nil =>
      intro ch c
      simp [runQueue, writesTo]
  | cons t rest ih =>
      intro ch c
      show runQueue rest (execEnvelope ch t) c = _
      rw [ih (execEnvelope ch t) c, writesTo_cons]
      by_cases hc : t.chan = c
      · simp [execEnvelope, fulfill, hc, List.append_assoc]
      · have hc' : ¬ c = t.chan := fun e => hc e.symm
        simp [execEnvelope, fulfill, hc, hc']

theorem writesTo_tasksFrom_lt (subs : List ((α → Except String β) × α)) :
    ∀ (n c : Nat), c < n → writesTo (tasksFrom n subs) c = [] := by
  induction subs with
  | nil =>
      intro n c h
      rfl
  | cons fa rest ih =>
      intro n c h
      obtain ⟨f, a⟩ := fa
      have hne : ¬ n = c := by omega
      simp [tasksFrom, writesTo_cons, hne, ih (n + 1) c (by omega)]

theorem writesTo_tasksFrom_at (pre : List ((α → Except String β) × α)) :
    ∀ (n : Nat) (f : α → Except String β) (a : α)
      (post : List ((α → Except String β) × α)),
      writesTo (tasksFrom n (pre ++ (f, a) :: post)) (n + pre.length) = [f a] := by
  induction pre with
  | nil =>
      intro n f a post
      simp [tasksFrom, writesTo_cons, TaskP.executeActually,
        writesTo_tasksFrom_lt post (n + 1) n (by omega)]
  | cons gb pre' ih =>
      intro n f a post
      obtain ⟨g, b⟩ := gb
      have hne : ¬ n = n + (pre'.length + 1) := by omega
      simp only [List.cons_append, tasksFrom, writesTo_cons, List.length_cons, hne,
        if_false, List.nil_append]
      rw [show n + (pre'.length + 1) = (n + 1) + pre'.length by omega]
      exact ih (n + 1) f a post

theorem submitAllP_eq :
    ∀ (subs : List ((α → Except String β) × α)) (p : PoolP α β), p.shutP = false →
      submitAllP p subs =
        ({ p with
            queueP := p.queueP ++ tasksFrom p.nextChan subs
            nextChan := p.nextChan + subs.length }, futsFrom p.nextChan subs.length) := by
  intro subs
  induction subs with
  | nil =>
      intro p hp
      simp [submitAllP, tasksFrom, futsFrom]
  | cons fa rest ih =>
      intro p hp
      obtain ⟨f, a⟩ := fa
      have key := ih { p with
        queueP := p.queueP ++ [⟨f, a, p.nextChan⟩]
        nextChan := p.nextChan + 1 } hp
      dsimp only at key
      rw [hp] at key
      simp only [submitAllP, submitP, hp, Bool.false_eq_true, if_false, key,
        List.length_cons, futsFrom_succ, Prod.mk.injEq]
      refine ⟨?_, trivial⟩
      have harith : (p.nextChan + 1) + rest.length = p.nextChan + (rest.length + 1) := by
        omega
      simp [tasksFrom, List.append_assoc, harith]

theorem futsFrom_getD (n k i : Nat) (h : i < k) :
    (futsFrom n k).getD i none = some (n + i) := by
  simp [futsFrom, List.getD, List.getElem?_map, List.getElem?_range, h]

theorem submitAll_pipeline (α β : Type) (pre post : List ((α → Except String β) × α))
    (f : α → Except String β) (a : α) :
    futureGetP (c1Final (pre ++ (f, a) :: post))
      ((c1Futs (pre ++ (f, a) :: post)).getD pre.length none) = some (f a) ∧
    (c1Final (pre ++ (f, a) :: post)).channels pre.length = [f a] ∧
    (c1Final (pre ++ (f, a) :: post)).queueP = [] := by
  have hsub := submitAllP_eq (pre ++ (f, a) :: post) (PoolP.empty α β) rfl
  have hpool : c1Pool (pre ++ (f, a) :: post) =
      { PoolP.empty α β with
        queueP := [] ++ tasksFrom 0 (pre ++ (f, a) :: post)
        nextChan := 0 + (pre ++ (f, a) :: post).length } :=
    congrArg Prod.fst hsub
  have hfuts : c1Futs (pre ++ (f, a) :: post) =
      futsFrom 0 (pre ++ (f, a) :: post).length :=
    congrArg Prod.snd hsub
  have hchan : (c1Final (pre ++ (f, a) :: post)).channels pre.length = [f a] := by
    show (runAllP (c1Pool (pre ++ (f, a) :: post))).channels pre.length = [f a]
    rw [hpool]
    show runQueue ([] ++ tasksFrom 0 (pre ++ (f, a) :: post)) (fun _ => [])
      pre.length = [f a]
    rw [List.nil_append, runQueue_channels]
    have := writesTo_tasksFrom_at pre 0 f a post
    rw [Nat.zero_add] at this
    rw [this]
    rfl
  refine ⟨?_, hchan, ?_⟩
  · have hlen : pre.length < (pre ++ (f, a) :: post).length := by
      simp
    rw [hfuts, futsFrom_getD 0 _ pre.length hlen, Nat.zero_add]
    show ((c1Final (pre ++ (f, a) :: post)).channels pre.length).head? = some (f a)
    rw [hchan]
    rfl
  · show (runAllP (c1Pool (pre ++ (f, a) :: post))).queueP = []
    rfl

/-- Claim C1: executing a task envelope applies the stored callable to the
captured arguments and appends the outcome to the envelope's result channel —
exactly one store per execution (the channel records every store, so the
singleton result shows the callable ran exactly once).  Consequently, for
every task accepted by `submit` and later executed by the drained pipeline,
the future returned by `submit` is ready and yields `fn(args...)`: the task
at position `pre.length` of the submission list ends with its channel holding
exactly `[f a]` and its future's `get` returning `f a`. -/
theorem execute_runs_once_and_futures_yield :
    (∀ (α β : Type) (ch : Channels β) (t : TaskP α β),
      execEnvelope ch t t.chan = ch t.chan ++ [t.fn t.args]) ∧
    (∀ (α β : Type) (subs pre post : List ((α → Except String β) × α))
      (f : α → Except String β) (a : α), subs = pre ++ (f, a) :: post →
      futureGetP (c1Final subs) ((c1Futs subs).getD pre.length none) = some (f a) ∧
      (c1Final subs).channels pre.length = [f a] ∧
      (c1Final subs).queueP = []) := by
  constructor
  · intro α β ch t
    simp [execEnvelope, fulfill, TaskP.executeActually]
  · intro α β subs pre post f a hs
    subst hs
    exact submitAll_pipeline α β pre post f a

/-- Witness for C1: the spec's concrete scenario — four submitted tasks
computing `i*2` for `i` in `[1..4]`; all four futures are ready and return
`2, 4, 6, 8`, and the queue is drained. -/
theorem execute_runs_once_scenario_witness :
    futureGetP (c1Final scenarioSubs) ((c1Futs scenarioSubs).getD 0 none) =
      some (Except.ok 2) ∧
    futureGetP (c1Final scenarioSubs) ((c1Futs scenarioSubs).getD 1 none) =
      some (Except.ok 4) ∧
    futureGetP (c1Final scenarioSubs) ((c1Futs scenarioSubs).getD 2 none) =
      some (Except.ok 6) ∧
    futureGetP (c1Final scenarioSubs) ((c1Futs scenarioSubs).getD 3 none) =
      some (Except.ok 8) ∧
    (c1Final scenarioSubs).queueP = [] :=
  ⟨(execute_runs_once_and_futures_yield.2 Int Int scenarioSubs []
      [(fun i => Except.ok (i * 2), 2), (fun i => Except.ok (i * 2), 3),
        (fun i => Except.ok (i * 2), 4)]
      (fun i => Except.ok (i * 2)) 1 rfl).1,
    (execute_runs_once_and_futures_yield.2 Int Int scenarioSubs
      [(fun i => Except.ok (i * 2), 1)]
      [(fun i => Except.ok (i * 2), 3), (fun i => Except.ok (i * 2), 4)]
      (fun i => Except.ok (i * 2)) 2 rfl).1,
    (execute_runs_once_and_futures_yield.2 Int Int scenarioSubs
      [(fun i => Except.ok (i * 2), 1), (fun i => Except.ok (i * 2), 2)]
      [(fun i => Except.ok (i * 2), 4)]
      (fun i => Except.ok (i * 2)) 3 rfl).1,
    (execute_runs_once_and_futures_yield.2 Int Int scenarioSubs
      [(fun i => Except.ok (i * 2), 1), (fun i => Except.ok (i * 2), 2),
        (fun i => Except.ok (i * 2), 3)]
      []
      (fun i => Except.ok (i * 2)) 4 rfl).1,
    (execute_runs_once_and_futures_yield.2 Int Int scenarioSubs []
      [(fun i => Except.ok (i * 2), 2), (fun i => Except.ok (i * 2), 3),
        (fun i => Except.ok (i * 2), 4)]
      (fun i => Except.ok (i * 2)) 1 rfl).2.2⟩

/-- Claim C7: a callable that raises (modelled as returning `Except.error e`)
has the failure captured into its own result channel — the channel holds
exactly `[error e]` and the future's `get` surfaces the same failure — and
nothing propagates out of the envelope's `execute()` into the worker loop
(`execEnvelope` is a total function into the channels; the failure exists
only as the stored outcome): the pipeline keeps draining, and an
independently submitted subsequent task still completes successfully, its
channel holding exactly its own result. -/
theorem task_failure_captured_and_worker_continues :
    ∀ (α β : Type) (fnB fnG : α → Except String β) (aB aG : α) (e : String),
      fnB aB = Except.error e →
      (c1Final [(fnB, aB), (fnG, aG)]).channels 0 = [Except.error e] ∧
      futureGetP (c1Final [(fnB, aB), (fnG, aG)])
        ((c1Futs [(fnB, aB), (fnG, aG)]).getD 0 none) = some (Except.error e) ∧
      (c1Final [(fnB, aB), (fnG, aG)]).channels 1 = [fnG aG] ∧
      futureGetP (c1Final [(fnB, aB), (fnG, aG)])
        ((c1Futs [(fnB, aB), (fnG, aG)]).getD 1 none) = some (fnG aG) ∧
      (c1Final [(fnB, aB), (fnG, aG)]).queueP = [] := by
  intro α β fnB fnG aB aG e he
  have h0 := submitAll_pipeline α β [] [(fnG, aG)] fnB aB
  have h1 := submitAll_pipeline α β [(fnB, aB)] [] fnG aG
  refine ⟨?_, ?_, h1.2.1, h1.1, h1.2.2⟩
  · rw [← he]
    exact h0.2.1
  · rw [← he]
    exact h0.1

/-- Witness for C7: a first task that throws `"boom"` and a second,
independent task computing `41 + 1`. -/
theorem task_failure_captured_witness :
    (c1Final c7Subs).channels 0 = [Except.error "boom"] ∧
    futureGetP (c1Final c7Subs) ((c1Futs c7Subs).getD 0 none) =
      some (Except.error "boom") ∧
    (c1Final c7Subs).channels 1 = [Except.ok 42] ∧
    futureGetP (c1Final c7Subs) ((c1Futs c7Subs).getD 1 none) =
      some (Except.ok 42) ∧
    (c1Final c7Subs).queueP = [] :=
  task_failure_captured_and_worker_continues Int Int
    (fun _ => Except.error "boom") (fun j => Except.ok (j + 1)) 0 41 "boom" rfl
